import Mathlib

/-!
# Verification of the amaru-rpi self-update orchestrator

Shallow embedding of the two-phase updater installed by
`src/app/src/migrations/m2025_12.rs`.  That file installs three bash
scripts; the semantics verified here is the semantics of those scripts:

* `UPDATER_SCRIPT` (check phase): `init_state_file`,
  `fetch_latest_release_json`, `extract_release_info`, `stage_binary`,
  `update_state_file`, `check_one_binary`, `main`.
* `ACTIVATE_SCRIPT` (activate phase): `apply_updates`, `main`.

Modelling conventions:

* The JSON state file becomes `UpdateState` / `BinaryRecord`; the record
  fields mirror the JSON keys.  Records produced by the scripts always
  carry all five fields, so records are total structures.
* The filesystem is a list of paths of existing (executable) files;
  `[ -f "$p" ]` with `p = ""` is false, captured by `fexists`.
* Network and archive behaviour is an oracle (`BinaryEnv`): the HTTP
  outcome of the release fetch, whether `curl -sL` of the asset
  succeeds, and whether the archive contains a file named after the
  binary (the `find` in `stage_binary`).
* bash `set -e` semantics, checked against bash 5: a plain failing
  command (the unguarded `curl -sL` download) aborts the whole script;
  a command substitution does not inherit `errexit`, and
  `local staged=$(stage_binary ...)` discards the substitution's exit
  status, so the `abort` inside `stage_binary` terminates only the
  subshell and the parent continues with `staged=""`.
* `flock -n` either acquires the lock or fails immediately; contention
  is the boolean `lockHeld` input of the entry points.
-/

namespace Amaru

/-! ## Data model: the persisted state file -/

/-- One entry of the `applications` object of the state file
(`UPDATER_SCRIPT` lines 62–64). -/
structure BinaryRecord where
  current_version : String
  current_source : String
  pending_version : String
  pending_source : String
  staged_path : String
deriving Repr, DecidableEq

/-- The record written for a fresh binary: `current_version` `v0.0.0`,
everything else empty. -/
def defaultRecord : BinaryRecord :=
  { current_version := "v0.0.0", current_source := "", pending_version := ""
    pending_source := "", staged_path := "" }

/-- The whole state file: `notify_after` plus the `applications` object,
kept as an association list in key-insertion order. -/
structure UpdateState where
  notify_after : Nat
  applications : List (String × BinaryRecord)
deriving Repr, DecidableEq

/-- `BINARIES_TO_UPDATE` of the updater script. -/
def BINARIES_TO_UPDATE : List String := ["amaru-pi", "amaru", "amaru-doctor"]

/-- The default state written by `init_state_file` when the state file is
absent (lines 59–66). -/
def defaultState : UpdateState :=
  { notify_after := 0
    applications :=
      [("amaru-pi", defaultRecord), ("amaru", defaultRecord),
       ("amaru-doctor", defaultRecord)] }

/-- `init_state_file` (lines 56–69): when the file is absent, write the
default state and `chown pi:pi` it; otherwise leave it alone.  The second
component records the ownership applied to a freshly created file. -/
def init_state_file : Option UpdateState → UpdateState × Option String
  | none => (defaultState, some "pi:pi")
  | some s => (s, none)

/-! ## Filesystem model -/

/-- Paths of existing executable files. -/
abbrev FS := List String

/-- `[ -f "$p" ]`: an empty path never names a file. -/
def fexists (fs : FS) (p : String) : Bool := p != "" && fs.contains p

/-- Creating a file (idempotent: `mv` onto an existing target replaces it). -/
def addFile (fs : FS) (p : String) : FS := if fs.contains p then fs else fs ++ [p]

/-- Removing a file (`mv` away, `rm`). -/
def removeFile (fs : FS) (p : String) : FS := fs.filter (fun q => q != p)

/-! ## Release checker: fetch and asset selection -/

/-- The body the release endpoint answers with, as far as the script
inspects it: whether it parses (`jq empty`), the `.tag_name` (`""` when
missing, via `// empty`), and the download URL of the first asset whose
name contains `linux`, `aarch64` and `.tar.gz` (`""` when none, `"null"`
mirroring a null entry). -/
structure ReleaseJson where
  valid : Bool
  tag_name : String
  download_url : String
deriving Repr, DecidableEq

/-- Outcome of `curl` against `/releases/latest`. -/
inductive FetchOutcome where
  | ok (body : ReleaseJson)
  | notFound
  | httpError (code : Nat)
deriving Repr, DecidableEq

/-- Return code of `fetch_latest_release_json` (lines 71–94): 0 on
HTTP 200, 2 on HTTP 404, 1 on any other status or transport failure
(transport failure leaves `http_code` at `000`, taking the final
branch). -/
def fetch_rc : FetchOutcome → Nat
  | .ok _ => 0
  | .notFound => 2
  | .httpError _ => 1

/-- Severity of the log line `fetch_latest_release_json` emits in each
case (lines 81, 86, 90): 404 is logged as a warning, other failures as
errors. -/
def fetch_log_severity : FetchOutcome → String
  | .ok _ => "DEBUG"
  | .notFound => "WARN"
  | .httpError _ => "ERROR"

/-- `extract_release_info` (lines 96–115): fail on unparseable JSON, or
when the tag is empty or no matching asset URL exists. -/
def extract_release_info (j : ReleaseJson) : Option (String × String) :=
  if !j.valid then none
  else if j.tag_name == "" || j.download_url == "" || j.download_url == "null" then none
  else some (j.tag_name, j.download_url)

/-! ## Stager -/

/-- `STAGING_DIR` of the updater script. -/
def STAGING_DIR : String := "/tmp"

/-- The deterministic staging path `${STAGING_DIR}/${binary_name}.new`. -/
def stagingPath (b : String) : String := STAGING_DIR ++ "/" ++ b ++ ".new"

/-- Per-binary oracle for one check cycle: the release fetch outcome,
whether the asset download (`curl -sL`, line 195) succeeds, and whether
extraction locates a file named after the binary (lines 127–128). -/
structure BinaryEnv where
  fetch : FetchOutcome
  download_ok : Bool
  payload_found : Bool
deriving Repr, DecidableEq

/-- `stage_binary` (lines 117–138) as observed through the command
substitution at line 197.  On success the extracted file is moved to the
staging path and made executable, and the path is the captured stdout.
When extraction fails or the payload is missing, the `abort` terminates
only the `$(...)` subshell (bash does not propagate `errexit` into
command substitutions, and `local` discards the substitution's exit
status), so the caller observes stdout `""` and continues. -/
def stage_binary (env : BinaryEnv) (b : String) (fs : FS) : String × FS :=
  if env.payload_found then (stagingPath b, addFile fs (stagingPath b))
  else ("", fs)

/-- The per-entry effect of the `jq` filter of `update_state_file`: the
entry named `b` gets its three pending fields rewritten, every other
entry is untouched. -/
def updEntry (b ver path src : String) (e : String × BinaryRecord) :
    String × BinaryRecord :=
  if e.1 = b then
    (e.1, { e.2 with pending_version := ver, pending_source := src
                     staged_path := path })
  else e

/-- `update_state_file` (lines 140–153): rewrite only the three pending
fields of the named binary's record via `jq`, then `mv` the temp file
into place.  The `jq` path assignment rewrites the existing entry; the
script only calls this after the lazy-add in `check_one_binary`
guarantees the entry exists. -/
def update_state_file (st : UpdateState) (b ver path src : String) : UpdateState :=
  { st with applications := st.applications.map (updEntry b ver path src) }

/-- Whether the state file has an entry for `b` (`jq -e`, line 161). -/
def hasKey (st : UpdateState) (b : String) : Bool := (st.applications.lookup b).isSome

/-- The lazy add of lines 161–166: an absent entry is created with the
default record (appended, matching `jq` adding a new key). -/
def lazyAdd (st : UpdateState) (b : String) : UpdateState :=
  if hasKey st b then st
  else { st with applications := st.applications ++ [(b, defaultRecord)] }

/-- The staging trigger of line 190:
`[[ "$current_version" != "$latest_version" ]] || [[ "$current_source" != "$target_repo" ]]` —
plain string inequality on either component. -/
def update_due (r : BinaryRecord) (latest repo : String) : Bool :=
  r.current_version != latest || r.current_source != repo

/-- What `check_one_binary` did for a binary this cycle.  `fetchSkip`
carries the return code of `fetch_latest_release_json` (2 for 404, 1
otherwise); `stagedEmpty` is the staging-failure path where the state is
nevertheless rewritten with an empty staged path; `abortedDownload` is
the unguarded `curl -sL` failing under `set -e`, terminating the whole
script. -/
inductive Outcome where
  | fetchSkip (rc : Nat)
  | noAsset
  | upToDate
  | staged
  | stagedEmpty
  | abortedDownload
deriving Repr, DecidableEq

/-- `check_one_binary` (lines 155–205).  Returns the state file content,
the filesystem, and the outcome.  On a fetch failure the outcome carries
the return code of `fetch_latest_release_json`; the `rc=$?` captured
inside `check_one_binary` itself (line 173) is the status of the already
negated `if !` condition (always 0), so the two failure kinds are told
apart by fetch's return code and its WARN/ERROR log line, not by the
message of lines 174–178 — behaviourally both kinds skip the binary with
the state untouched. -/
def check_one_binary (repo : String) (env : BinaryEnv) (b : String)
    (st : UpdateState) (fs : FS) : UpdateState × FS × Outcome :=
  let st1 := lazyAdd st b
  let r := (st1.applications.lookup b).getD defaultRecord
  match env.fetch with
  | .notFound => (st1, fs, .fetchSkip 2)
  | .httpError _ => (st1, fs, .fetchSkip 1)
  | .ok j =>
    match extract_release_info j with
    | none => (st1, fs, .noAsset)
    | some (latest, _url) =>
      if update_due r latest repo then
        if env.download_ok then
          let s := stage_binary env b fs
          (update_state_file st1 b latest s.1 repo, s.2,
           if env.payload_found then .staged else .stagedEmpty)
        else (st1, fs, .abortedDownload)
      else (st1, fs, .upToDate)

/-- The `for binary in "${BINARIES_TO_UPDATE[@]}"` loop of `main`
(lines 207–212).  `set -e` terminates the script at a failed download,
so later binaries are not processed; the final component records whether
that happened. -/
def check_pass (repos : String → String) (envs : String → BinaryEnv) :
    List String → UpdateState → FS →
    UpdateState × FS × List (String × Outcome) × Bool
  | [], st, fs => (st, fs, [], false)
  | b :: rest, st, fs =>
    let one := check_one_binary (repos b) (envs b) b st fs
    if one.2.2 = .abortedDownload then (one.1, one.2.1, [(b, one.2.2)], true)
    else
      let k := check_pass repos envs rest one.1 one.2.1
      (k.1, k.2.1, (b, one.2.2) :: k.2.2.1, k.2.2.2)

/-- Result of one invocation of the updater script: the state file after
the run, the filesystem, the per-binary log of outcomes, whether `set -e`
aborted the pass at a download failure, and whether the invocation failed
at the `flock -n` guard. -/
structure UpdaterRun where
  file : Option UpdateState
  fs : FS
  outcomes : List (String × Outcome)
  aborted : Bool
  lockError : Bool
deriving Repr, DecidableEq

/-- The updater script end to end (lines 11–215): the `flock -n` at
line 29 fails immediately when the lock is held, before the state file is
touched; otherwise `init_state_file` then the check loop run. -/
def updater_main (lockHeld : Bool) (repos : String → String)
    (envs : String → BinaryEnv) (file : Option UpdateState) (fs : FS) : UpdaterRun :=
  if lockHeld then
    { file := file, fs := fs, outcomes := [], aborted := false, lockError := true }
  else
    let st0 := (init_state_file file).1
    let k := check_pass repos envs BINARIES_TO_UPDATE st0 fs
    { file := some k.1, fs := k.2.1, outcomes := k.2.2.1, aborted := k.2.2.2
      lockError := false }

/-! ## Activator (`ACTIVATE_SCRIPT`) -/

/-- `BIN_DIR` of the activate script. -/
def BIN_DIR : String := "/home/pi/bin"

/-- `${BIN_DIR}/${app_name}`. -/
def installPath (n : String) : String := BIN_DIR ++ "/" ++ n

/-- `${BIN_DIR}/${app_name}.bak`. -/
def backupPath (n : String) : String := installPath n ++ ".bak"

/-- The record rewrite of lines 257–262: promote pending to current and
clear the pending fields. -/
def promote (r : BinaryRecord) : BinaryRecord :=
  { current_version := r.pending_version, current_source := r.pending_source
    pending_version := "", pending_source := "", staged_path := "" }

/-- One iteration of the `apply_updates` loop (lines 241–264) for entry
`(n, r)`: when `pending_version` is non-empty and a file exists at the
staged path, back up any existing installed binary to `.bak` (overwriting
a prior `.bak`), move the staged file into the install location, and
promote the record; otherwise a no-op.  The pending fields are read from
the snapshot taken at line 233, the `-f` tests run against the live
filesystem. -/
def activate_one (fs : FS) (n : String) (r : BinaryRecord) : BinaryRecord × FS :=
  if r.pending_version != "" && fexists fs r.staged_path then
    let fs1 :=
      if fexists fs (installPath n) then addFile (removeFile fs (installPath n)) (backupPath n)
      else fs
    let fs2 := addFile (removeFile fs1 r.staged_path) (installPath n)
    (promote r, fs2)
  else (r, fs)

/-- The `for app_name in ... keys[]` loop: every key of the applications
object is visited, in the order of the record list (each entry is
rewritten independently of the others, so the enumeration order of
`jq`'s `keys[]` does not change the touched fields). -/
def applyList (fs : FS) : List (String × BinaryRecord) →
    List (String × BinaryRecord) × FS
  | [] => ([], fs)
  | (n, r) :: rest =>
    let one := activate_one fs n r
    let k := applyList one.2 rest
    ((n, one.1) :: k.1, k.2)

/-- `apply_updates` (lines 232–274): rewrite every entry, then save with
`.notify_after = 0` (line 267). -/
def apply_updates (st : UpdateState) (fs : FS) : UpdateState × FS :=
  let k := applyList fs st.applications
  ({ notify_after := 0, applications := k.1 }, k.2)

/-- Result of one invocation of the activate script. -/
structure ActivatorRun where
  file : Option UpdateState
  fs : FS
  lockError : Bool
deriving Repr, DecidableEq

/-- The activate script end to end (lines 217–282): the `flock -n` at
line 228 fails immediately when the lock is held, before the state file
is read or written; otherwise `apply_updates` runs on the state file
content `st`. -/
def activate_main (lockHeld : Bool) (st : UpdateState) (fs : FS) : ActivatorRun :=
  if lockHeld then { file := some st, fs := fs, lockError := true }
  else
    let k := apply_updates st fs
    { file := some k.1, fs := k.2, lockError := false }

/-! ## How each save path writes the state file

The two save paths write the state file differently, and the difference
is what a concurrent reader (or a crash) can observe.  A save is a
sequence of primitive steps; `StateFileView` is what a reader of the
state file sees after each step. -/

/-- Primitive filesystem steps of a save of the state file. -/
inductive SaveStep where
  /-- Write the new content to a fresh `mktemp` path (lines 146–150);
  the state file itself is untouched. -/
  | writeTemp
  /-- `mv "$tmp" "$STATE_FILE"` (line 151): atomic rename installing the
  new content `new`. -/
  | renameIntoPlace (new : UpdateState)
  /-- Opening `> "$STATE_FILE"` (line 267) truncates the file in place. -/
  | truncateTarget
  /-- The redirected `jq` output lands in the (truncated) state file. -/
  | writeContents (new : UpdateState)
deriving Repr, DecidableEq

/-- What a reader of the state file observes: a complete serialized
state, or a truncated/partially written file. -/
inductive StateFileView where
  | intact (s : UpdateState)
  | truncated
deriving Repr, DecidableEq

/-- Effect of one step on the reader-visible state file. -/
def stepView : StateFileView → SaveStep → StateFileView
  | v, .writeTemp => v
  | _, .renameIntoPlace s => .intact s
  | _, .truncateTarget => .truncated
  | _, .writeContents s => .intact s

/-- The state file after a (possibly partial) run of the steps. -/
def viewAfter (v : StateFileView) : List SaveStep → StateFileView
  | [] => v
  | s :: rest => viewAfter (stepView v s) rest

/-- Every state of the state file a concurrent reader can observe while
the steps run, the initial one included. -/
def views (v : StateFileView) : List SaveStep → List StateFileView
  | [] => [v]
  | s :: rest => v :: views (stepView v s) rest

/-- The save of `update_state_file` (and of the lazy add at lines
162–164): temp write, then rename. -/
def update_state_file_save (new : UpdateState) : List SaveStep :=
  [.writeTemp, .renameIntoPlace new]

/-- The save at the end of `apply_updates` (line 267): a plain shell
redirection onto the state file. -/
def apply_updates_save (new : UpdateState) : List SaveStep :=
  [.truncateTarget, .writeContents new]

/-! ## Basic lemmas about the model -/

theorem lazyAdd_of_lookup (st : UpdateState) (b : String) (r : BinaryRecord)
    (h : st.applications.lookup b = some r) : lazyAdd st b = st := by
  simp [lazyAdd, hasKey, h]

theorem mem_addFile {fs : FS} {p q : String} : q ∈ addFile fs p ↔ q ∈ fs ∨ q = p := by
  unfold addFile
  split
  · next h =>
    constructor
    · exact Or.inl
    · rintro (hq | rfl)
      · exact hq
      · exact List.elem_iff.mp h
  · simp [List.mem_append]

theorem mem_removeFile {fs : FS} {p q : String} : q ∈ removeFile fs p ↔ q ∈ fs ∧ q ≠ p := by
  simp [removeFile, List.mem_filter]

theorem fexists_iff {fs : FS} {p : String} : fexists fs p = true ↔ p ≠ "" ∧ p ∈ fs := by
  simp [fexists, List.elem_iff, List.contains]

theorem updEntry_self (b ver path src k : String) (r : BinaryRecord) (hk : k = b) :
    updEntry b ver path src (k, r) =
      (k, { r with pending_version := ver, pending_source := src, staged_path := path }) := by
  simp [updEntry, hk]

theorem updEntry_other (b ver path src k : String) (r : BinaryRecord) (hk : k ≠ b) :
    updEntry b ver path src (k, r) = (k, r) := by
  simp [updEntry, hk]

theorem lookup_update_self (st : UpdateState) (b ver path src : String) :
    (update_state_file st b ver path src).applications.lookup b =
      (st.applications.lookup b).map (fun r =>
        { r with pending_version := ver, pending_source := src, staged_path := path }) := by
  show (st.applications.map _).lookup b = _
  induction st.applications with
  | nil => rfl
  | cons e rest ih =>
    obtain ⟨k, r⟩ := e
    by_cases hk : k = b
    · subst hk
      rw [List.map_cons, updEntry_self _ _ _ _ _ _ rfl]
      simp [List.lookup]
    · rw [List.map_cons, updEntry_other _ _ _ _ _ _ hk]
      have hbk : (b == k) = false := by simp [Ne.symm hk]
      simp [List.lookup, hbk, ih]

theorem lookup_update_other (st : UpdateState) (b ver path src b' : String) (h : b' ≠ b) :
    (update_state_file st b ver path src).applications.lookup b' =
      st.applications.lookup b' := by
  show (st.applications.map _).lookup b' = _
  induction st.applications with
  | nil => rfl
  | cons e rest ih =>
    obtain ⟨k, r⟩ := e
    by_cases hk : k = b
    · subst hk
      rw [List.map_cons, updEntry_self _ _ _ _ _ _ rfl]
      have hbk : (b' == k) = false := by simp [h]
      simp [List.lookup, hbk, ih]
    · rw [List.map_cons, updEntry_other _ _ _ _ _ _ hk]
      by_cases hk' : b' = k
      · subst hk'
        simp [List.lookup]
      · simp [List.lookup, hk', ih]

theorem update_due_iff (r : BinaryRecord) (latest repo : String) :
    update_due r latest repo = true ↔
      (r.current_version ≠ latest ∨ r.current_source ≠ repo) := by
  simp [update_due]

/-- Evaluation of `check_one_binary` on a state that already has an
entry for the binary (so the lazy add is the identity). -/
theorem check_one_binary_eq (repo : String) (env : BinaryEnv) (b : String)
    (st : UpdateState) (fs : FS) (r : BinaryRecord)
    (hb : st.applications.lookup b = some r) :
    check_one_binary repo env b st fs =
      match env.fetch with
      | .notFound => (st, fs, .fetchSkip 2)
      | .httpError _ => (st, fs, .fetchSkip 1)
      | .ok j =>
        match extract_release_info j with
        | none => (st, fs, .noAsset)
        | some (latest, _) =>
          if update_due r latest repo then
            if env.download_ok then
              (update_state_file st b latest
                 (if env.payload_found then stagingPath b else "") repo,
               (if env.payload_found then addFile fs (stagingPath b) else fs),
               if env.payload_found then Outcome.staged else Outcome.stagedEmpty)
            else (st, fs, .abortedDownload)
          else (st, fs, .upToDate)
      := by
  obtain ⟨f, dl, pf⟩ := env
  unfold check_one_binary
  rw [lazyAdd_of_lookup st b r hb]
  cases f with
  | notFound => rfl
  | httpError c => rfl
  | ok j =>
    simp only [hb, Option.getD_some]
    cases hx : extract_release_info j with
    | none => rfl
    | some p =>
      obtain ⟨latest, url⟩ := p
      cases hdue : update_due r latest repo with
      | false => simp [hdue]
      | true =>
        cases dl with
        | false => simp [hdue]
        | true => cases pf <;> simp [hdue, stage_binary]

theorem installPath_ne_empty (n : String) : installPath n ≠ "" := by
  intro h
  have hl := congrArg String.length h
  simp [installPath, BIN_DIR, String.length_append] at hl
  exact absurd hl.1 (by decide)

/-- All paths touched by the activation of entry `e` are distinct from
the three paths of interest for binary `b` with record `r`.  The
activate script draws staged paths from `/tmp` and install paths from
`/home/pi/bin`, so the separation holds for every state the scripts
themselves produce. -/
def sepPaths (b : String) (r : BinaryRecord) (e : String × BinaryRecord) : Bool :=
  r.staged_path != installPath e.1 && (r.staged_path != backupPath e.1) &&
  (r.staged_path != e.2.staged_path) &&
  (installPath b != installPath e.1) && (installPath b != backupPath e.1) &&
  (installPath b != e.2.staged_path) &&
  (backupPath b != installPath e.1) && (backupPath b != backupPath e.1) &&
  (backupPath b != e.2.staged_path)

/-- Path separation between binary `b` (record `r`) and every other
entry of the applications list. -/
def SepFor (l : List (String × BinaryRecord)) (b : String) (r : BinaryRecord) : Prop :=
  ∀ e ∈ l, e.1 ≠ b → sepPaths b r e = true

instance (l : List (String × BinaryRecord)) (b : String) (r : BinaryRecord) :
    Decidable (SepFor l b r) := by
  unfold SepFor
  infer_instance

theorem sepPaths_spec {b : String} {r : BinaryRecord} {e : String × BinaryRecord}
    (h : sepPaths b r e = true) :
    (r.staged_path ≠ installPath e.1 ∧ r.staged_path ≠ backupPath e.1 ∧
      r.staged_path ≠ e.2.staged_path)
    ∧ (installPath b ≠ installPath e.1 ∧ installPath b ≠ backupPath e.1 ∧
      installPath b ≠ e.2.staged_path)
    ∧ (backupPath b ≠ installPath e.1 ∧ backupPath b ≠ backupPath e.1 ∧
      backupPath b ≠ e.2.staged_path) := by
  simp only [sepPaths, Bool.and_eq_true, bne_iff_ne] at h
  tauto

/-- `activate_one` touches only the staged path of its entry and the
install/backup paths of its name; every other path's existence is
preserved. -/
theorem activate_one_fs_frame (fs : FS) (n : String) (r : BinaryRecord) (p : String)
    (h1 : p ≠ installPath n) (h2 : p ≠ backupPath n) (h3 : p ≠ r.staged_path) :
    (p ∈ (activate_one fs n r).2 ↔ p ∈ fs) := by
  by_cases hc : (r.pending_version != "" && fexists fs r.staged_path) = true
  · by_cases hi : fexists fs (installPath n) = true
    · simp only [activate_one, hc, if_true, hi]
      simp [mem_addFile, mem_removeFile, h1, h2, h3]
    · simp only [activate_one, hc, if_true, hi, if_false]
      simp [mem_addFile, mem_removeFile, h1, h3]
  · simp [activate_one, hc]

/-- A path separated from every entry of the list is untouched by the
whole activation loop. -/
theorem applyList_fs_frame (l : List (String × BinaryRecord)) (fs : FS) (p : String)
    (h : ∀ e ∈ l, p ≠ installPath e.1 ∧ p ≠ backupPath e.1 ∧ p ≠ e.2.staged_path) :
    (p ∈ (applyList fs l).2 ↔ p ∈ fs) := by
  induction l generalizing fs with
  | nil => exact Iff.rfl
  | cons e rest ih =>
    obtain ⟨n, r⟩ := e
    have he := h (n, r) (List.mem_cons_self _ _)
    show p ∈ (applyList (activate_one fs n r).2 rest).2 ↔ p ∈ fs
    rw [ih _ (fun e' he' => h e' (List.mem_cons_of_mem _ he'))]
    exact activate_one_fs_frame fs n r p he.1 he.2.1 he.2.2

/-- Evaluation of `activate_one` when the entry qualifies. -/
theorem activate_one_active (fs : FS) (n : String) (r : BinaryRecord)
    (hp : r.pending_version ≠ "") (hf : fexists fs r.staged_path = true) :
    activate_one fs n r =
      (promote r,
       addFile
         (removeFile
           (if fexists fs (installPath n) then
              addFile (removeFile fs (installPath n)) (backupPath n)
            else fs)
           r.staged_path)
         (installPath n)) := by
  simp [activate_one, hp, hf]

/-- Evaluation of `activate_one` when the entry does not qualify. -/
theorem activate_one_skip (fs : FS) (n : String) (r : BinaryRecord)
    (h : r.pending_version = "" ∨ fexists fs r.staged_path = false) :
    activate_one fs n r = (r, fs) := by
  rcases h with h | h <;> simp [activate_one, h]

/-- An entry whose pending version is non-empty and whose staged file
exists is promoted by the activation loop: its record becomes
`promote r`, the binary lands at its install path, and a pre-existing
installed binary is backed up to the `.bak` path. -/
theorem applyList_activates (l : List (String × BinaryRecord)) (b : String)
    (r : BinaryRecord)
    (hp : r.pending_version ≠ "") (hs0 : r.staged_path ≠ "")
    (hb2 : r.staged_path ≠ backupPath b) :
    ∀ fs : FS, (b, r) ∈ l → (l.map Prod.fst).Nodup → SepFor l b r →
      r.staged_path ∈ fs →
      (applyList fs l).1.lookup b = some (promote r)
      ∧ installPath b ∈ (applyList fs l).2
      ∧ (installPath b ∈ fs → backupPath b ∈ (applyList fs l).2) := by
  induction l with
  | nil =>
    intro fs hmem
    cases hmem
  | cons e rest ih =>
    intro fs hmem hnd hsep hs
    obtain ⟨n, r0⟩ := e
    have hnd' : (rest.map Prod.fst).Nodup := by
      simpa using (List.nodup_cons.mp (by simpa using hnd)).2
    rcases List.mem_cons.mp hmem with heq | hmem'
    · have hn : b = n := congrArg Prod.fst heq
      have hr : r = r0 := congrArg Prod.snd heq
      subst hn
      subst hr
      have hf : fexists fs r.staged_path = true := fexists_iff.mpr ⟨hs0, hs⟩
      have hbrest : b ∉ rest.map Prod.fst :=
        (List.nodup_cons.mp (by simpa using hnd)).1
      have hne_rest : ∀ e' ∈ rest, e'.1 ≠ b := by
        intro e' he' hcontra
        exact hbrest (hcontra ▸ List.mem_map_of_mem Prod.fst he')
      have hrest : ∀ e' ∈ rest, sepPaths b r e' = true :=
        fun e' he' => hsep e' (List.mem_cons_of_mem _ he') (hne_rest e' he')
      have hframe_inst : ∀ e' ∈ rest,
          installPath b ≠ installPath e'.1 ∧ installPath b ≠ backupPath e'.1 ∧
          installPath b ≠ e'.2.staged_path :=
        fun e' he' => (sepPaths_spec (hrest e' he')).2.1
      have hframe_bak : ∀ e' ∈ rest,
          backupPath b ≠ installPath e'.1 ∧ backupPath b ≠ backupPath e'.1 ∧
          backupPath b ≠ e'.2.staged_path :=
        fun e' he' => (sepPaths_spec (hrest e' he')).2.2
      refine ⟨?_, ?_, ?_⟩
      · show ((b, (activate_one fs b r).1) ::
            (applyList (activate_one fs b r).2 rest).1).lookup b = some (promote r)
        rw [activate_one_active fs b r hp hf]
        simp [List.lookup]
      · show installPath b ∈ (applyList (activate_one fs b r).2 rest).2
        rw [applyList_fs_frame rest _ _ hframe_inst,
          activate_one_active fs b r hp hf]
        exact mem_addFile.mpr (Or.inr rfl)
      · intro hi
        show backupPath b ∈ (applyList (activate_one fs b r).2 rest).2
        rw [applyList_fs_frame rest _ _ hframe_bak,
          activate_one_active fs b r hp hf]
        have hfi : fexists fs (installPath b) = true :=
          fexists_iff.mpr ⟨installPath_ne_empty b, hi⟩
        rw [if_pos hfi]
        exact mem_addFile.mpr (Or.inl (mem_removeFile.mpr
          ⟨mem_addFile.mpr (Or.inr rfl), Ne.symm hb2⟩))
    · have hbrest : b ∈ rest.map Prod.fst := List.mem_map_of_mem Prod.fst hmem'
      have hn : n ≠ b := by
        intro hcontra
        exact (List.nodup_cons.mp (by simpa using hnd)).1 (hcontra ▸ hbrest)
      have hsp := sepPaths_spec (hsep (n, r0) (List.mem_cons_self _ _) hn)
      have hframe := activate_one_fs_frame fs n r0 r.staged_path
        hsp.1.1 hsp.1.2.1 hsp.1.2.2
      have hsep' : SepFor rest b r := fun e' he' => hsep e' (List.mem_cons_of_mem _ he')
      have hihres := ih ((activate_one fs n r0).2) hmem' hnd' hsep' (hframe.mpr hs)
      have hbn : (b == n) = false := by simp [Ne.symm hn]
      refine ⟨?_, hihres.2.1, ?_⟩
      · show ((n, (activate_one fs n r0).1) ::
            (applyList (activate_one fs n r0).2 rest).1).lookup b = some (promote r)
        simp [List.lookup, hbn, hihres.1]
      · intro hi
        have hframe_inst := activate_one_fs_frame fs n r0 (installPath b)
          hsp.2.1.1 hsp.2.1.2.1 hsp.2.1.2.2
        exact hihres.2.2 (hframe_inst.mpr hi)

/-- The (weaker) separation a skipped entry needs: its staged path is
not a path the activation of another entry could create. -/
def sepPathsSkip (r : BinaryRecord) (e : String × BinaryRecord) : Bool :=
  r.staged_path != installPath e.1 && (r.staged_path != backupPath e.1)

/-- Skip-side path separation against every other entry of the list. -/
def SepSkipFor (l : List (String × BinaryRecord)) (b : String) (r : BinaryRecord) : Prop :=
  ∀ e ∈ l, e.1 ≠ b → sepPathsSkip r e = true

instance (l : List (String × BinaryRecord)) (b : String) (r : BinaryRecord) :
    Decidable (SepSkipFor l b r) := by
  unfold SepSkipFor
  infer_instance

theorem sepPathsSkip_spec {r : BinaryRecord} {e : String × BinaryRecord}
    (h : sepPathsSkip r e = true) :
    r.staged_path ≠ installPath e.1 ∧ r.staged_path ≠ backupPath e.1 := by
  simp only [sepPathsSkip, Bool.and_eq_true, bne_iff_ne] at h
  exact h

/-- `activate_one` creates no files other than the install and backup
paths of its own name. -/
theorem activate_one_fs_no_new (fs : FS) (n : String) (r0 : BinaryRecord) (p : String)
    (h1 : p ≠ installPath n) (h2 : p ≠ backupPath n) (hout : p ∉ fs) :
    p ∉ (activate_one fs n r0).2 := by
  by_cases hc : (r0.pending_version != "" && fexists fs r0.staged_path) = true
  · simp only [activate_one, hc, if_true]
    intro hin
    rcases mem_addFile.mp hin with hin1 | hin1
    · have hin2 := (mem_removeFile.mp hin1).1
      by_cases hi : fexists fs (installPath n) = true
      · rw [if_pos hi] at hin2
        rcases mem_addFile.mp hin2 with hin3 | hin3
        · exact hout (mem_removeFile.mp hin3).1
        · exact h2 hin3
      · rw [if_neg hi] at hin2
        exact hout hin2
    · exact h1 hin1
  · simp only [activate_one, hc, if_false]
    exact hout

/-- An entry whose pending version is empty, or whose staged path names
no existing file, is left untouched by the activation loop. -/
theorem applyList_skips (l : List (String × BinaryRecord)) (b : String)
    (r : BinaryRecord) :
    ∀ fs : FS, (b, r) ∈ l → (l.map Prod.fst).Nodup → SepSkipFor l b r →
      (r.pending_version = "" ∨ fexists fs r.staged_path = false) →
      (applyList fs l).1.lookup b = some r := by
  induction l with
  | nil =>
    intro fs hmem
    cases hmem
  | cons e rest ih =>
    intro fs hmem hnd hsep hskip
    obtain ⟨n, r0⟩ := e
    have hnd' : (rest.map Prod.fst).Nodup := by
      simpa using (List.nodup_cons.mp (by simpa using hnd)).2
    rcases List.mem_cons.mp hmem with heq | hmem'
    · have hn : b = n := congrArg Prod.fst heq
      have hr : r = r0 := congrArg Prod.snd heq
      subst hn
      subst hr
      show ((b, (activate_one fs b r).1) ::
          (applyList (activate_one fs b r).2 rest).1).lookup b = some r
      rw [activate_one_skip fs b r hskip]
      simp [List.lookup]
    · have hbrest : b ∈ rest.map Prod.fst := List.mem_map_of_mem Prod.fst hmem'
      have hn : n ≠ b := by
        intro hcontra
        exact (List.nodup_cons.mp (by simpa using hnd)).1 (hcontra ▸ hbrest)
      have hsp := sepPathsSkip_spec (hsep (n, r0) (List.mem_cons_self _ _) hn)
      have hsep' : SepSkipFor rest b r := fun e' he' => hsep e' (List.mem_cons_of_mem _ he')
      have hskip' : r.pending_version = "" ∨
          fexists ((activate_one fs n r0).2) r.staged_path = false := by
        rcases hskip with hpe | hfe
        · exact Or.inl hpe
        · refine Or.inr ?_
          by_cases hz : r.staged_path = ""
          · simp [fexists, hz]
          · have hnotfs : r.staged_path ∉ fs := by
              intro hin
              exact (Bool.eq_false_iff.mp hfe) (fexists_iff.mpr ⟨hz, hin⟩)
            have hnot : r.staged_path ∉ (activate_one fs n r0).2 :=
              activate_one_fs_no_new fs n r0 r.staged_path hsp.1 hsp.2 hnotfs
            cases hb : fexists ((activate_one fs n r0).2) r.staged_path with
            | false => rfl
            | true => exact absurd (fexists_iff.mp hb).2 hnot
      have hbn : (b == n) = false := by simp [Ne.symm hn]
      have hihres := ih ((activate_one fs n r0).2) hmem' hnd' hsep' hskip'
      show ((n, (activate_one fs n r0).1) ::
          (applyList (activate_one fs n r0).2 rest).1).lookup b = some r
      simp [List.lookup, hbn, hihres]

/-- `GITHUB_REPOS` (lines 31–34), before any environment override; the
script looks this table up only for the three configured binaries. -/
def GITHUB_REPOS : String → String
  | "amaru" => "pragma-org/amaru"
  | "amaru-pi" => "jeluard/amaru-pi"
  | "amaru-doctor" => "jeluard/amaru-doctor"
  | _ => ""

/-! ## Claim theorems -/

/-- C6: if the state file is absent, Load creates a default UpdateState
containing exactly the three configured binaries (amaru-pi, amaru,
amaru-doctor), each with currentVersion "v0.0.0", empty currentSource,
empty pendingVersion/pendingSource and empty stagedPath, with
notifyAfter zero, and applies the host's ownership requirement
(`chown pi:pi`). -/
theorem load_absent_creates_configured_defaults :
    init_state_file none =
      ({ notify_after := 0
         applications :=
           [("amaru-pi",
             { current_version := "v0.0.0", current_source := ""
               pending_version := "", pending_source := "", staged_path := "" }),
            ("amaru",
             { current_version := "v0.0.0", current_source := ""
               pending_version := "", pending_source := "", staged_path := "" }),
            ("amaru-doctor",
             { current_version := "v0.0.0", current_source := ""
               pending_version := "", pending_source := "", staged_path := "" })] },
       some "pi:pi")
    ∧ (init_state_file none).1.applications.map Prod.fst = BINARIES_TO_UPDATE := by
  exact ⟨rfl, rfl⟩

/-- C7: the Stager's state update for a binary changes only that
binary's pendingVersion, pendingSource and stagedPath: notifyAfter is
unchanged, every other binary's record is unchanged, and the updated
record keeps its currentVersion and currentSource. -/
theorem staging_state_update_frame (st : UpdateState) (b ver path src b' : String)
    (r : BinaryRecord) (hb : st.applications.lookup b = some r) (hb' : b' ≠ b) :
    (update_state_file st b ver path src).notify_after = st.notify_after
    ∧ (update_state_file st b ver path src).applications.lookup b' =
        st.applications.lookup b'
    ∧ (update_state_file st b ver path src).applications.lookup b =
        some { current_version := r.current_version
               current_source := r.current_source
               pending_version := ver, pending_source := src
               staged_path := path } := by
  refine ⟨rfl, lookup_update_other st b ver path src b' hb', ?_⟩
  rw [lookup_update_self, hb]
  rfl

theorem staging_state_update_frame_witness :
    (update_state_file defaultState "amaru" "v1.2.3" "/tmp/amaru.new" "orgB/amaru").notify_after
        = defaultState.notify_after
    ∧ (update_state_file defaultState "amaru" "v1.2.3" "/tmp/amaru.new"
        "orgB/amaru").applications.lookup "amaru-pi" =
        defaultState.applications.lookup "amaru-pi"
    ∧ (update_state_file defaultState "amaru" "v1.2.3" "/tmp/amaru.new"
        "orgB/amaru").applications.lookup "amaru" =
        some { current_version := defaultRecord.current_version
               current_source := defaultRecord.current_source
               pending_version := "v1.2.3", pending_source := "orgB/amaru"
               staged_path := "/tmp/amaru.new" } :=
  staging_state_update_frame defaultState "amaru" "v1.2.3" "/tmp/amaru.new"
    "orgB/amaru" "amaru-pi" defaultRecord (by decide) (by decide)

/-- C9: while a check (respectively activation) pass holds its advisory
lock, a second invocation of the same phase fails immediately with the
distinct lock-contention condition instead of running, and the failed
attempt leaves the state file (and filesystem) exactly as it found them;
an uncontended invocation never reports that condition.  `flock -n` is
non-blocking, so contention is a total, immediate outcome, not a wait. -/
theorem lock_contention_fails_fast (repos : String → String)
    (envs : String → BinaryEnv) (file : Option UpdateState) (fs : FS)
    (st : UpdateState) :
    updater_main true repos envs file fs =
      { file := file, fs := fs, outcomes := [], aborted := false, lockError := true }
    ∧ activate_main true st fs = { file := some st, fs := fs, lockError := true }
    ∧ (updater_main false repos envs file fs).lockError = false
    ∧ (activate_main false st fs).lockError = false := by
  exact ⟨rfl, rfl, rfl, rfl⟩

/-- Two distinct concrete state file contents used in the save-path
theorems. -/
def oldStateC1 : UpdateState := defaultState

def newStateC1 : UpdateState :=
  { notify_after := 0
    applications :=
      [("amaru",
        { current_version := "v1.0.0", current_source := "pragma-org/amaru"
          pending_version := "", pending_source := "", staged_path := "" })] }

/-- C1 counterexample: the Activator's save (line 267 of the activate
script, a plain `>` redirection) takes the state file through a
truncated intermediate that a concurrent reader can observe, and a write
failing right after the truncation leaves neither the old nor the new
state on disk — so it is not the case that every save is
write-to-temp-then-rename atomic. -/
theorem activator_save_truncates_counterexample :
    StateFileView.truncated ∈
      views (.intact oldStateC1) (apply_updates_save newStateC1)
    ∧ viewAfter (.intact oldStateC1) [SaveStep.truncateTarget] = .truncated
    ∧ ¬ (∀ v ∈ views (.intact oldStateC1) (apply_updates_save newStateC1),
          v = .intact oldStateC1 ∨ v = .intact newStateC1) := by
  decide

/-- C1 amended: the Stager's saves (`update_state_file` and the lazy
add) are write-to-temp-then-rename: a concurrent reader only ever
observes the complete old or complete new state, and a failure before
the rename leaves the old state on disk.  The Activator's save instead
writes through the state file directly, so its intermediate is a
truncated file, observable by a concurrent reader, and a failure after
the truncation loses the old state. -/
theorem stager_save_atomic_activator_save_direct (old new : UpdateState) :
    (∀ v ∈ views (.intact old) (update_state_file_save new),
       v = .intact old ∨ v = .intact new)
    ∧ viewAfter (.intact old) [] = .intact old
    ∧ viewAfter (.intact old) [SaveStep.writeTemp] = .intact old
    ∧ viewAfter (.intact old) (update_state_file_save new) = .intact new
    ∧ StateFileView.truncated ∈ views (.intact old) (apply_updates_save new)
    ∧ viewAfter (.intact old) (apply_updates_save new) = .intact new := by
  refine ⟨?_, rfl, rfl, rfl, ?_, rfl⟩
  · intro v hv
    simp only [views, update_state_file_save, stepView, List.mem_cons,
      List.mem_singleton, List.not_mem_nil, or_false] at hv
    rcases hv with rfl | rfl | rfl
    · exact Or.inl rfl
    · exact Or.inl rfl
    · exact Or.inr rfl
  · simp [views, apply_updates_save, stepView]

theorem stager_save_atomic_witness :
    StateFileView.intact newStateC1 = .intact oldStateC1 ∨
      StateFileView.intact newStateC1 = .intact newStateC1 :=
  (stager_save_atomic_activator_save_direct oldStateC1 newStateC1).1
    (.intact newStateC1) (by decide)

/-- C3: with a reachable release (valid descriptor, matching asset,
successful download and extraction), the Checker stages an update for a
binary iff the fetched version string differs from the stored
currentVersion or the configured repository differs from the stored
currentSource — plain string inequality.  When both are equal the state
is returned unchanged (so pendingVersion stays empty across repeated
checks of an unchanged remote), and when due the record's pending fields
are set to the fetched version, the configured repository and the
staging path. -/
theorem checker_stages_iff_version_or_source_differ
    (repo : String) (env : BinaryEnv) (b : String) (st : UpdateState) (fs : FS)
    (r : BinaryRecord) (j : ReleaseJson) (latest url : String)
    (hb : st.applications.lookup b = some r)
    (hf : env.fetch = .ok j) (hx : extract_release_info j = some (latest, url))
    (hdl : env.download_ok = true) (hpf : env.payload_found = true) :
    ((check_one_binary repo env b st fs).2.2 = .staged ↔
      (r.current_version ≠ latest ∨ r.current_source ≠ repo))
    ∧ (r.current_version = latest ∧ r.current_source = repo →
        check_one_binary repo env b st fs = (st, fs, .upToDate))
    ∧ ((r.current_version ≠ latest ∨ r.current_source ≠ repo) →
        (check_one_binary repo env b st fs).1.applications.lookup b =
          some { r with pending_version := latest, pending_source := repo
                        staged_path := stagingPath b }) := by
  have hmain := check_one_binary_eq repo env b st fs r hb
  simp only [hf, hx, hdl, hpf, if_true] at hmain
  cases hdue : update_due r latest repo with
  | false =>
    simp only [hdue, Bool.false_eq_true, if_false] at hmain
    have hnd : ¬ (r.current_version ≠ latest ∨ r.current_source ≠ repo) := by
      rw [← update_due_iff, hdue]
      simp
    refine ⟨?_, fun _ => hmain, fun hcontra => absurd hcontra hnd⟩
    rw [hmain]
    simp only [iff_iff_implies_and_implies]
    constructor
    · intro habs
      exact absurd habs (by simp)
    · intro hcontra
      exact absurd hcontra hnd
  | true =>
    have hd := (update_due_iff r latest repo).mp hdue
    simp only [hdue, if_true] at hmain
    refine ⟨?_, ?_, ?_⟩
    · rw [hmain]
      simp [hd]
    · rintro ⟨h1, h2⟩
      rcases hd with hd | hd
      · exact absurd h1 hd
      · exact absurd h2 hd
    · intro _
      rw [hmain]
      show (update_state_file st b latest (stagingPath b) repo).applications.lookup b = _
      rw [lookup_update_self, hb]
      rfl

/-- The source-override scenario of the spec: equal version strings but
a different configured repository. -/
def stC3 : UpdateState :=
  { notify_after := 0
    applications :=
      [("amaru",
        { current_version := "v1.0.0", current_source := "orgA/repo"
          pending_version := "", pending_source := "", staged_path := "" })] }

def jsonC3 : ReleaseJson :=
  { valid := true, tag_name := "v1.0.0"
    download_url := "https://example.org/amaru-aarch64-unknown-linux-gnu.tar.gz" }

def envC3 : BinaryEnv := { fetch := .ok jsonC3, download_ok := true, payload_found := true }

theorem checker_source_override_witness :
    (check_one_binary "orgB/repo" envC3 "amaru" stC3 []).2.2 = .staged :=
  ((checker_stages_iff_version_or_source_differ "orgB/repo" envC3 "amaru" stC3 []
      { current_version := "v1.0.0", current_source := "orgA/repo"
        pending_version := "", pending_source := "", staged_path := "" }
      jsonC3 "v1.0.0" "https://example.org/amaru-aarch64-unknown-linux-gnu.tar.gz"
      (by decide) rfl (by decide) rfl rfl).1).mpr (by decide)

/-- C8: the release fetch reports HTTP 404 as the distinct
NoReleaseFound condition (return code 2, logged as a warning, not an
error) and any other failing status or transport failure as the
distinct FetchFailed condition (return code 1, logged as an error); in
either case the binary is skipped for the cycle with its state
untouched, and the pass continues with the remaining binaries instead
of aborting. -/
theorem fetch_404_distinct_and_not_fatal
    (repos : String → String) (envs : String → BinaryEnv) (b : String)
    (rest : List String) (st : UpdateState) (fs : FS) (r : BinaryRecord)
    (hb : st.applications.lookup b = some r) :
    fetch_rc .notFound = 2
    ∧ (∀ c, fetch_rc (.httpError c) = 1)
    ∧ fetch_rc .notFound ≠ fetch_rc (.httpError 500)
    ∧ fetch_log_severity .notFound = "WARN"
    ∧ (∀ c, fetch_log_severity (.httpError c) = "ERROR")
    ∧ ((envs b).fetch = .notFound →
        check_one_binary (repos b) (envs b) b st fs = (st, fs, .fetchSkip 2)
        ∧ check_pass repos envs (b :: rest) st fs =
            ((check_pass repos envs rest st fs).1,
             (check_pass repos envs rest st fs).2.1,
             (b, Outcome.fetchSkip 2) :: (check_pass repos envs rest st fs).2.2.1,
             (check_pass repos envs rest st fs).2.2.2))
    ∧ (∀ c, (envs b).fetch = .httpError c →
        check_one_binary (repos b) (envs b) b st fs = (st, fs, .fetchSkip 1)
        ∧ check_pass repos envs (b :: rest) st fs =
            ((check_pass repos envs rest st fs).1,
             (check_pass repos envs rest st fs).2.1,
             (b, Outcome.fetchSkip 1) :: (check_pass repos envs rest st fs).2.2.1,
             (check_pass repos envs rest st fs).2.2.2)) := by
  have hmain := check_one_binary_eq (repos b) (envs b) b st fs r hb
  refine ⟨rfl, fun c => rfl, by decide, rfl, fun c => rfl, ?_, ?_⟩
  · intro hf
    simp only [hf] at hmain
    refine ⟨hmain, ?_⟩
    simp [check_pass, hmain]
  · intro c hf
    simp only [hf] at hmain
    refine ⟨hmain, ?_⟩
    simp [check_pass, hmain]

def stC8 : UpdateState := defaultState

def envsC8 : String → BinaryEnv := fun b =>
  if b = "amaru" then { fetch := .notFound, download_ok := true, payload_found := true }
  else { fetch := .httpError 500, download_ok := true, payload_found := true }

theorem fetch_404_distinct_witness :
    check_one_binary (GITHUB_REPOS "amaru") (envsC8 "amaru") "amaru" stC8 [] =
      (stC8, [], .fetchSkip 2)
    ∧ check_pass GITHUB_REPOS envsC8 ("amaru" :: ["amaru-doctor"]) stC8 [] =
        ((check_pass GITHUB_REPOS envsC8 ["amaru-doctor"] stC8 []).1,
         (check_pass GITHUB_REPOS envsC8 ["amaru-doctor"] stC8 []).2.1,
         ("amaru", Outcome.fetchSkip 2) ::
           (check_pass GITHUB_REPOS envsC8 ["amaru-doctor"] stC8 []).2.2.1,
         (check_pass GITHUB_REPOS envsC8 ["amaru-doctor"] stC8 []).2.2.2) :=
  (fetch_404_distinct_and_not_fatal GITHUB_REPOS envsC8 "amaru" ["amaru-doctor"]
      stC8 [] defaultRecord (by decide)).2.2.2.2.2.1 (by decide)

/-- C2 amended: per-binary independence holds only for the failures the
script guards.  A fetch failure (HTTP 404 or any other fetch error) and
a missing-asset/invalid-descriptor failure skip just that binary,
leaving state and filesystem untouched, and the remaining binaries are
still checked.  A failure of the unguarded asset download, however,
aborts the entire pass under `set -e` — later binaries are not checked
(the state is unchanged because the abort happens before the state
update).  An extraction/payload-location failure does not stop the pass
but does mutate the failed binary's state: its pendingVersion and
pendingSource are recorded with an empty stagedPath. -/
theorem check_pass_per_binary_failure_modes
    (repos : String → String) (envs : String → BinaryEnv) (b : String)
    (rest : List String) (st : UpdateState) (fs : FS) (r : BinaryRecord)
    (hb : st.applications.lookup b = some r) :
    ((fetch_rc (envs b).fetch = 2 ∨ fetch_rc (envs b).fetch = 1) →
       check_pass repos envs (b :: rest) st fs =
         ((check_pass repos envs rest st fs).1,
          (check_pass repos envs rest st fs).2.1,
          (b, Outcome.fetchSkip (fetch_rc (envs b).fetch)) ::
            (check_pass repos envs rest st fs).2.2.1,
          (check_pass repos envs rest st fs).2.2.2))
    ∧ (∀ j, (envs b).fetch = .ok j → extract_release_info j = none →
        check_pass repos envs (b :: rest) st fs =
          ((check_pass repos envs rest st fs).1,
           (check_pass repos envs rest st fs).2.1,
           (b, Outcome.noAsset) :: (check_pass repos envs rest st fs).2.2.1,
           (check_pass repos envs rest st fs).2.2.2))
    ∧ (∀ j latest url, (envs b).fetch = .ok j →
        extract_release_info j = some (latest, url) →
        update_due r latest (repos b) = true → (envs b).download_ok = false →
        check_pass repos envs (b :: rest) st fs =
          (st, fs, [(b, Outcome.abortedDownload)], true))
    ∧ (∀ j latest url, (envs b).fetch = .ok j →
        extract_release_info j = some (latest, url) →
        update_due r latest (repos b) = true → (envs b).download_ok = true →
        (envs b).payload_found = false →
        check_pass repos envs (b :: rest) st fs =
          ((check_pass repos envs rest (update_state_file st b latest "" (repos b)) fs).1,
           (check_pass repos envs rest (update_state_file st b latest "" (repos b)) fs).2.1,
           (b, Outcome.stagedEmpty) ::
             (check_pass repos envs rest
               (update_state_file st b latest "" (repos b)) fs).2.2.1,
           (check_pass repos envs rest
             (update_state_file st b latest "" (repos b)) fs).2.2.2)) := by
  have hmain := check_one_binary_eq (repos b) (envs b) b st fs r hb
  refine ⟨?_, ?_, ?_, ?_⟩
  · intro hrc
    cases hfc : (envs b).fetch with
    | ok j =>
      rw [hfc] at hrc
      simp [fetch_rc] at hrc
    | notFound =>
      rw [hfc] at hrc hmain
      simp only [fetch_rc] at hrc ⊢
      simp [check_pass, hmain]
    | httpError c =>
      rw [hfc] at hrc hmain
      simp only [fetch_rc] at hrc ⊢
      simp [check_pass, hmain]
  · intro j hf hx
    simp only [hf, hx] at hmain
    simp [check_pass, hmain]
  · intro j latest url hf hx hdue hdl
    simp only [hf, hx, hdue, hdl, Bool.false_eq_true, if_true, if_false] at hmain
    simp [check_pass, hmain]
  · intro j latest url hf hx hdue hdl hpf
    simp only [hf, hx, hdue, hdl, hpf, Bool.false_eq_true, if_true, if_false] at hmain
    simp [check_pass, hmain]

/-- A release descriptor with a matching aarch64 asset, version v1.0.0. -/
def jsonDue (b : String) : ReleaseJson :=
  { valid := true, tag_name := "v1.0.0"
    download_url := "https://example.org/" ++ b ++ "-aarch64-unknown-linux-gnu.tar.gz" }

/-- The cycle used to refute per-binary independence: amaru-pi's archive
lacks its payload, amaru's asset download fails, amaru-doctor would have
answered 404 had it been reached. -/
def envsC2 : String → BinaryEnv := fun b =>
  if b = "amaru-pi" then
    { fetch := .ok (jsonDue "amaru-pi"), download_ok := true, payload_found := false }
  else if b = "amaru" then
    { fetch := .ok (jsonDue "amaru"), download_ok := false, payload_found := true }
  else { fetch := .notFound, download_ok := true, payload_found := true }

/-- C2 counterexample: in the concrete cycle `envsC2`, the pass aborts at
amaru's failed download without any lock contention or persistence
failure — amaru-doctor is never checked — and amaru-pi's
extraction failure has already mutated its record (pendingVersion
recorded with an empty stagedPath), so a one-binary failure neither
stays confined to that binary nor leaves its state unmutated. -/
theorem check_pass_independence_counterexample :
    (updater_main false GITHUB_REPOS envsC2 none []).aborted = true
    ∧ (updater_main false GITHUB_REPOS envsC2 none []).lockError = false
    ∧ (updater_main false GITHUB_REPOS envsC2 none []).outcomes =
        [("amaru-pi", .stagedEmpty), ("amaru", .abortedDownload)]
    ∧ (updater_main false GITHUB_REPOS envsC2 none []).file =
        some { notify_after := 0
               applications :=
                 [("amaru-pi",
                   { current_version := "v0.0.0", current_source := ""
                     pending_version := "v1.0.0"
                     pending_source := "jeluard/amaru-pi", staged_path := "" }),
                  ("amaru", defaultRecord), ("amaru-doctor", defaultRecord)] } := by
  decide

def envsC2W : String → BinaryEnv := fun _ =>
  { fetch := .ok (jsonDue "amaru"), download_ok := false, payload_found := true }

theorem check_pass_failure_modes_witness :
    check_pass GITHUB_REPOS envsC2W ("amaru" :: ["amaru-doctor"]) defaultState [] =
      (defaultState, [], [("amaru", Outcome.abortedDownload)], true) :=
  (check_pass_per_binary_failure_modes GITHUB_REPOS envsC2W "amaru" ["amaru-doctor"]
      defaultState [] defaultRecord (by decide)).2.2.1
    (jsonDue "amaru") "v1.0.0"
    "https://example.org/amaru-aarch64-unknown-linux-gnu.tar.gz"
    rfl (by decide) (by decide) rfl

/-- The pending-iff-staged invariant of the spec, per record. -/
def recordInvariant (fs : FS) (r : BinaryRecord) : Bool :=
  (r.pending_version != "") == fexists fs r.staged_path

/-- The cycle that breaks the invariant: a due release whose archive
does not contain a file named after the binary. -/
def envsC5 : String → BinaryEnv := fun b =>
  if b = "amaru-pi" then
    { fetch := .ok (jsonDue "amaru-pi"), download_ok := true, payload_found := false }
  else { fetch := .notFound, download_ok := true, payload_found := true }

/-- The record the updater leaves behind in that cycle. -/
def badRecordC5 : BinaryRecord :=
  { current_version := "v0.0.0", current_source := ""
    pending_version := "v1.0.0", pending_source := "jeluard/amaru-pi"
    staged_path := "" }

/-- C5: a Stager run whose extraction fails (payload missing from the
archive) completes the pass (`aborted = false`) yet records
pendingVersion "v1.0.0" with stagedPath "" for amaru-pi — pendingVersion
is non-empty while stagedPath names no existing file, violating the
pending-iff-staged invariant after a Stager run.  The `abort` inside
`stage_binary` only kills the `$(...)` subshell (bash `local` discards
the substitution's exit status and `errexit` is not inherited there), so
`update_state_file` still runs with an empty staged path. -/
theorem staging_failure_breaks_pending_iff_staged :
    (updater_main false GITHUB_REPOS envsC5 none []).file =
      some { notify_after := 0
             applications :=
               [("amaru-pi", badRecordC5), ("amaru", defaultRecord),
                ("amaru-doctor", defaultRecord)] }
    ∧ (updater_main false GITHUB_REPOS envsC5 none []).aborted = false
    ∧ recordInvariant (updater_main false GITHUB_REPOS envsC5 none []).fs
        badRecordC5 = false := by
  decide

/-- C4: under the path separation the deployment layout guarantees
(staged files under /tmp, installs under /home/pi/bin), a binary with a
non-empty pendingVersion and an existing staged file is promoted by
activation — currentVersion/currentSource take the pending values, the
pending fields and stagedPath are cleared, the binary lands at its
install path and any pre-existing installed binary is backed up to the
`.bak` path — while a binary with an empty pendingVersion or a missing
staged file is skipped unchanged; notifyAfter is reset to zero in the
saved state. -/
theorem activation_promotes_or_skips (st : UpdateState) (fs : FS) (b : String)
    (r : BinaryRecord)
    (hmem : (b, r) ∈ st.applications)
    (hnd : (st.applications.map Prod.fst).Nodup) :
    (apply_updates st fs).1.notify_after = 0
    ∧ (SepFor st.applications b r → r.staged_path ≠ backupPath b →
        r.pending_version ≠ "" → r.staged_path ≠ "" → r.staged_path ∈ fs →
        (apply_updates st fs).1.applications.lookup b =
          some { current_version := r.pending_version
                 current_source := r.pending_source
                 pending_version := "", pending_source := ""
                 staged_path := "" }
        ∧ installPath b ∈ (apply_updates st fs).2
        ∧ (installPath b ∈ fs → backupPath b ∈ (apply_updates st fs).2))
    ∧ (SepSkipFor st.applications b r →
        (r.pending_version = "" ∨ fexists fs r.staged_path = false) →
        (apply_updates st fs).1.applications.lookup b = some r) := by
  refine ⟨rfl, ?_, ?_⟩
  · intro hsep hb2 hp hs0 hs
    exact applyList_activates st.applications b r hp hs0 hb2 fs hmem hnd hsep hs
  · intro hsep hsk
    exact applyList_skips st.applications b r fs hmem hnd hsep hsk

/-- A state with one staged update for amaru and nothing pending for the
other two binaries; amaru is already installed, so activation must also
produce a backup. -/
def rC4 : BinaryRecord :=
  { current_version := "v0.9.0", current_source := "pragma-org/amaru"
    pending_version := "v1.0.0", pending_source := "pragma-org/amaru"
    staged_path := "/tmp/amaru.new" }

def stC4 : UpdateState :=
  { notify_after := 7
    applications :=
      [("amaru-pi", defaultRecord), ("amaru", rC4), ("amaru-doctor", defaultRecord)] }

def fsC4 : FS := ["/tmp/amaru.new", "/home/pi/bin/amaru"]

theorem activation_promotes_witness :
    (apply_updates stC4 fsC4).1.notify_after = 0
    ∧ (apply_updates stC4 fsC4).1.applications.lookup "amaru" =
        some { current_version := "v1.0.0", current_source := "pragma-org/amaru"
               pending_version := "", pending_source := "", staged_path := "" }
    ∧ installPath "amaru" ∈ (apply_updates stC4 fsC4).2
    ∧ backupPath "amaru" ∈ (apply_updates stC4 fsC4).2
    ∧ (apply_updates stC4 fsC4).1.applications.lookup "amaru-pi" =
        some defaultRecord := by
  have h := activation_promotes_or_skips stC4 fsC4 "amaru" rC4 (by decide) (by decide)
  have hskip := activation_promotes_or_skips stC4 fsC4 "amaru-pi" defaultRecord
    (by decide) (by decide)
  have h2 := h.2.1 (by decide) (by decide) (by decide) (by decide) (by decide)
  exact ⟨h.1, h2.1, h2.2.1, h2.2.2 (by decide),
    hskip.2.2 (by decide) (Or.inl rfl)⟩

/-- C10: activation iterates over every key present in the state file's
applications map, not over the configured `BINARIES_TO_UPDATE` list: an
entry absent from the configured list whose pendingVersion is non-empty
and whose staged file exists is promoted and installed all the same. -/
theorem activation_covers_unconfigured_entries (st : UpdateState) (fs : FS)
    (b : String) (r : BinaryRecord)
    (_hcfg : b ∉ BINARIES_TO_UPDATE)
    (hmem : (b, r) ∈ st.applications)
    (hnd : (st.applications.map Prod.fst).Nodup)
    (hsep : SepFor st.applications b r)
    (hb2 : r.staged_path ≠ backupPath b)
    (hp : r.pending_version ≠ "") (hs0 : r.staged_path ≠ "")
    (hs : r.staged_path ∈ fs) :
    (apply_updates st fs).1.applications.lookup b = some (promote r)
    ∧ installPath b ∈ (apply_updates st fs).2 := by
  have h := applyList_activates st.applications b r hp hs0 hb2 fs hmem hnd hsep hs
  exact ⟨h.1, h.2.1⟩

/-- A state file carrying an entry no configured service depends on,
with a staged update (as an external edit, or a binary later dropped
from the configuration, would produce). -/
def rC10 : BinaryRecord :=
  { current_version := "v0.1.0", current_source := "someorg/amaru-extra"
    pending_version := "v0.2.0", pending_source := "someorg/amaru-extra"
    staged_path := "/tmp/amaru-extra.new" }

def stC10 : UpdateState :=
  { notify_after := 0
    applications := [("amaru", defaultRecord), ("amaru-extra", rC10)] }

theorem activation_unconfigured_witness :
    (apply_updates stC10 ["/tmp/amaru-extra.new"]).1.applications.lookup "amaru-extra" =
      some (promote rC10)
    ∧ installPath "amaru-extra" ∈ (apply_updates stC10 ["/tmp/amaru-extra.new"]).2 :=
  activation_covers_unconfigured_entries stC10 ["/tmp/amaru-extra.new"]
    "amaru-extra" rC10 (by decide) (by decide) (by decide) (by decide)
    (by decide) (by decide) (by decide) (by decide)

end Amaru
